import Mathlib

/-!
Verification of the task-orchestration core of the chromaKeyBackend server
(src/index.ts): the sqlite task registry, the in-process work queue with its
bounded-concurrency drain loop, the video-processing worker, the startup
recovery scanner, and the artifact (file) lifecycle.

The embedding is shallow: the sqlite table tasks(taskId PRIMARY KEY, status,
downloadLink) is a list of key/row pairs, SQL statements become list
operations, the per-task files on disk (the uploaded input and the frames
working directory) become booleans, and the external ffmpeg/Jimp pipeline is
an opaque environment recording whether analysis produced a color and whether
the transform succeeded or rejected with an error value.
-/

namespace ChromaKeyBackend

/-! ## Task registry data model (table tasks, interface TaskInfo) -/

/-- The status strings stored in the tasks table: processing is written by
addToQueue, completed and error by processVideo, failed by
handleInterruptedTasks. -/
inductive Status where
  | processing
  | completed
  | error
  | failed
deriving DecidableEq, Repr

/-- One row of the tasks table: status plus nullable downloadLink. -/
structure TaskRow where
  status : Status
  downloadLink : Option String
deriving DecidableEq, Repr

/-- The tasks table: a list of (taskId, row) pairs.  sqlite guarantees the
primary key is unique; theorems that need that take a Nodup hypothesis on the
key column. -/
abbrev Registry := List (String × TaskRow)

/-- SELECT status, downloadLink FROM tasks WHERE taskId = ? (the first row
with the given key, as getTaskQuery.get returns). -/
def lookupTask : Registry → String → Option TaskRow
  | [], _ => none
  | p :: t, id => if p.1 = id then some p.2 else lookupTask t id

/-- UPDATE tasks SET ... WHERE taskId = id, with f the SET clause applied to
each matching row. -/
def sqlUpdate (r : Registry) (id : String) (f : TaskRow → TaskRow) : Registry :=
  r.map (fun p => if p.1 = id then (p.1, f p.2) else p)

/-- UPDATE tasks SET status=completed, downloadLink=link WHERE taskId=id
(the success branch of processVideo). -/
def setCompleted (r : Registry) (id link : String) : Registry :=
  sqlUpdate r id (fun _ => ⟨Status.completed, some link⟩)

/-- UPDATE tasks SET status=error, downloadLink=NULL WHERE taskId=id
(the catch branch of processVideo). -/
def setError (r : Registry) (id : String) : Registry :=
  sqlUpdate r id (fun _ => ⟨Status.error, none⟩)

/-- UPDATE tasks SET status=failed WHERE taskId=id, as run by
handleInterruptedTasks.  Note the SET clause does not touch downloadLink. -/
def setFailedKeepLink (r : Registry) (id : String) : Registry :=
  sqlUpdate r id (fun row => ⟨Status.failed, row.downloadLink⟩)

/-- INSERT INTO tasks (taskId, status, downloadLink) VALUES (id, processing,
NULL) ON CONFLICT(taskId) DO UPDATE SET status=processing, downloadLink=NULL
(the write performed by addToQueue). -/
def upsertProcessing (r : Registry) (id : String) : Registry :=
  if r.any (fun p => p.1 = id) then
    sqlUpdate r id (fun _ => ⟨Status.processing, none⟩)
  else
    r ++ [(id, ⟨Status.processing, none⟩)]

/-- SELECT taskId FROM tasks WHERE status = processing, as run by
handleInterruptedTasks. -/
def processingIds (r : Registry) : List String :=
  (r.filter (fun p => p.2.status = Status.processing)).map Prod.fst

/-! ## Per-task files and the processing pipeline -/

/-- Existence on disk of the two per-task temporary artifacts: the uploaded
input uploads/taskId.mp4 and the working directory frames-taskId. -/
structure TaskFiles where
  inputExists : Bool
  frameDirExists : Bool
deriving DecidableEq, Repr

/-- cleanupFiles: unlink the input file and remove the frame directory; both
deletions are guarded by existsSync, so deleting an absent path is a no-op
and the result does not depend on the starting state. -/
def cleanupFiles (_files : TaskFiles) : TaskFiles :=
  ⟨false, false⟩

/-- A JavaScript error value as the catch block in processVideo sees it:
all that matters there is whether error.message is truthy. -/
structure JsError where
  hasMessage : Bool
deriving DecidableEq, Repr

/-- The opaque outcome of the external ffmpeg/Jimp pipeline for one task:
analysisColor is the mostCommonColor when analyzeVideo succeeds and none when
it returns null; transformError is none when chromaKeyVideo resolves and the
rejecting error value otherwise. -/
structure PipelineEnv where
  analysisColor : Option String
  transformError : Option JsError
deriving DecidableEq, Repr

/-- analyzeVideo: extractFrames first creates the frame directory
(mkdirSync runs before any ffmpeg work, so the directory exists on every
path, including failures), then analysis either yields a dominant color or
returns null after catching an internal error. -/
def analyzeVideo (env : PipelineEnv) (files : TaskFiles) :
    TaskFiles × Option String :=
  ({ files with frameDirExists := true }, env.analysisColor)

/-- chromaKeyVideo: both the end handler and the error handler of the ffmpeg
run call cleanupFiles on the input path and the frame directory before the
promise settles, so the temporary files are gone on success and on transform
failure alike. -/
def chromaKeyVideo (env : PipelineEnv) (files : TaskFiles) :
    TaskFiles × Option JsError :=
  (cleanupFiles files, env.transformError)

/-- path.basename: the final component of a slash-separated path. -/
def basename (p : String) : String :=
  (p.splitOn "/").getLastD p

/-- processVideo: run analyzeVideo; if it produced a color, run
chromaKeyVideo and on success set the row to completed with the derived
download link, while a rejection reaches the catch block; if analysis
returned null, an Error with a nonempty message is thrown and reaches the
same catch block.  The catch block updates the row to error/NULL only when
the caught error value has a truthy message field. -/
def processVideo (env : PipelineEnv) (taskId outputPath : String)
    (files : TaskFiles) (r : Registry) : TaskFiles × Registry :=
  match analyzeVideo env files with
  | (files1, some _) =>
    match chromaKeyVideo env files1 with
    | (files2, none) =>
      (files2, setCompleted r taskId ("/download/" ++ basename outputPath))
    | (files2, some e) =>
      (files2, if e.hasMessage then setError r taskId else r)
  | (files1, none) =>
    (files1, setError r taskId)

/-! ## Recovery scanner -/

/-- handleInterruptedTasks, restricted to its registry effect: select the
ids of all rows in status processing, then run the failed update for each
selected id in turn. -/
def handleInterruptedTasks (r : Registry) : Registry :=
  (processingIds r).foldl (fun acc id => setFailedKeepLink acc id) r

/-! ## Work queue and drain loop as a step relation

The module-level variables taskQueue and currentProcessing, together with the
histories of enqueued and dispatched jobs (ghost state used to express FIFO),
form the state.  The three atomic steps are: addToQueue pushing a job,
processQueue passing its guard (increment the counter and shift the head),
and a dispatched job finishing (its registry update inside processVideo is
committed before the finally block decrements the counter). -/

/-- interface VideoTask: a queued job. -/
structure VideoTask where
  taskId : String
  filePath : String
  outputPath : String
deriving DecidableEq, Repr

/-- const MAX_CONCURRENT_TASKS = 1. -/
def MAX_CONCURRENT_TASKS : Nat := 1

/-- The in-memory queue state plus enqueue/dispatch histories. -/
structure QueueState where
  taskQueue : List VideoTask
  currentProcessing : Nat
  dispatched : List VideoTask
  enqueued : List VideoTask
deriving DecidableEq, Repr

/-- The state at module load: empty queue, counter 0. -/
def initQueueState : QueueState :=
  ⟨[], 0, [], []⟩

/-- One atomic step of the queue/worker system.  JavaScript is
single-threaded and none of the three code sections contains an await, so
each runs atomically. -/
inductive QStep : QueueState → QueueState → Prop where
  | enqueue (t : VideoTask) (s : QueueState) :
      QStep s { s with
        taskQueue := s.taskQueue ++ [t],
        enqueued := s.enqueued ++ [t] }
  | dispatch (s : QueueState) (t : VideoTask) (rest : List VideoTask)
      (hq : s.taskQueue = t :: rest)
      (hc : s.currentProcessing < MAX_CONCURRENT_TASKS) :
      QStep s { s with
        taskQueue := rest,
        currentProcessing := s.currentProcessing + 1,
        dispatched := s.dispatched ++ [t] }
  | finish (s : QueueState) (hc : 0 < s.currentProcessing) :
      QStep s { s with currentProcessing := s.currentProcessing - 1 }

/-- States reachable from module load by queue/worker steps. -/
inductive Reachable : QueueState → Prop where
  | init : Reachable initQueueState
  | step {s t : QueueState} : Reachable s → QStep s t → Reachable t

/-! ## HTTP endpoints: upload and status -/

/-- The multipart file as Elysia hands it to the handler; only its size is
inspected by the orchestration code. -/
structure UploadFile where
  size : Nat
deriving DecidableEq, Repr

/-- The request body of POST /upload: ctx.body.video, possibly absent. -/
structure UploadRequest where
  video : Option UploadFile
deriving DecidableEq, Repr

/-- const MAX_SIZE = 50 * 1024 * 1024. -/
def MAX_SIZE : Nat := 50 * 1024 * 1024

/-- The responses the /upload handler can return. -/
inductive UploadResponse where
  | badRequest
  | tooLarge
  | accepted (taskId : String)
  | internalError
deriving DecidableEq, Repr

/-- The server state the /upload handler can change: the tasks table and the
in-memory queue. -/
structure ServerState where
  registry : Registry
  taskQueue : List VideoTask
deriving DecidableEq, Repr

/-- addToQueue: upsert the processing row, then push the job. -/
def addToQueue (taskId filePath outputPath : String) (st : ServerState) :
    ServerState :=
  { registry := upsertProcessing st.registry taskId,
    taskQueue := st.taskQueue ++ [⟨taskId, filePath, outputPath⟩] }

/-- The POST /upload handler: reject a missing video field with 400 before
any state change, reject a file over MAX_SIZE with 413 before any state
change, then write the upload (writeOk models whether Bun.write throws) and
on success call addToQueue and return the fresh task id. -/
def uploadHandler (req : UploadRequest) (freshId : String) (writeOk : Bool)
    (st : ServerState) : UploadResponse × ServerState :=
  match req.video with
  | none => (UploadResponse.badRequest, st)
  | some f =>
    if MAX_SIZE < f.size then
      (UploadResponse.tooLarge, st)
    else if writeOk then
      (UploadResponse.accepted freshId,
       addToQueue freshId ("uploads/" ++ freshId ++ ".mp4")
         ("output/" ++ freshId ++ ".webm") st)
    else
      (UploadResponse.internalError, st)

/-- interface TaskInfo, the value getTaskInfo builds from a row. -/
structure TaskInfo where
  status : Status
  downloadLink : Option String
deriving DecidableEq, Repr

/-- What the db read inside getTaskInfo produced: a row, no row, or a thrown
error. -/
inductive DbReadResult where
  | ok (row : Option TaskRow)
  | dbError
deriving DecidableEq, Repr

/-- getTaskInfo: build a TaskInfo from the row when the query returns one;
return undefined when it returns no row, and also — via the catch block —
when the query throws. -/
def getTaskInfo (read : DbReadResult) : Option TaskInfo :=
  match read with
  | DbReadResult.ok (some row) => some ⟨row.status, row.downloadLink⟩
  | DbReadResult.ok none => none
  | DbReadResult.dbError => none

/-- A JSON value of the two shapes the status endpoint can place in a
field: a string, or a nested object whose fields are strings. -/
inductive JField where
  | jstr (s : String)
  | jobj (fields : List (String × String))
deriving DecidableEq, Repr

/-- A JSON object body: named fields. -/
abbrev Json := List (String × JField)

/-- The string the status enum serializes to. -/
def statusToString : Status → String
  | Status.processing => "processing"
  | Status.completed => "completed"
  | Status.error => "error"
  | Status.failed => "failed"

/-- The fields of the serialized TaskInfo object: status always, and
downloadLink exactly when the column is non-null. -/
def taskInfoFields (ti : TaskInfo) : List (String × String) :=
  ("status", statusToString ti.status) ::
    (match ti.downloadLink with
     | some l => [("downloadLink", l)]
     | none => [])

/-- The response of GET /status/:taskId. -/
inductive StatusResponse where
  | ok (body : Json)
  | notFound
deriving DecidableEq, Repr

/-- The GET /status/:taskId handler: 404 when getTaskInfo yields nothing,
otherwise the body is the object literal containing taskInfo — that is, the
TaskInfo wrapped under a taskInfo key. -/
def statusHandler (read : DbReadResult) : StatusResponse :=
  match getTaskInfo read with
  | none => StatusResponse.notFound
  | some ti => StatusResponse.ok [("taskInfo", JField.jobj (taskInfoFields ti))]

/-- Modelled from the spec: the status body the specification describes,
the bare object with status and optional downloadLink taken directly from
the row (GET /status/:taskId gives status and optional downloadLink
reflecting the Task Registry row). -/
def specStatusBody (ti : TaskInfo) : Json :=
  (taskInfoFields ti).map (fun p => (p.1, JField.jstr p.2))

/-! ## Derived characterizations used by the theorems -/

/-- The row transformation the recovery scanner performs on a registry with
unique keys: rows in status processing move to failed (keeping their link
column), all other rows are untouched. -/
def failIfProcessing (p : String × TaskRow) : String × TaskRow :=
  if p.2.status = Status.processing then
    (p.1, ⟨Status.failed, p.2.downloadLink⟩)
  else p

/-- The registry invariant of the data model: a non-null downloadLink occurs
only on completed rows. -/
def registryInv (r : Registry) : Prop :=
  ∀ p ∈ r, p.2.downloadLink.isSome = true → p.2.status = Status.completed

/-! ## Registry lemmas -/

theorem lookupTask_sqlUpdate_self (r : Registry) (id : String)
    (f : TaskRow → TaskRow) :
    lookupTask (sqlUpdate r id f) id = (lookupTask r id).map f := by
  induction r with
  | nil => rfl
  | cons p t ih =>
    by_cases h : p.1 = id
    · simp [sqlUpdate, lookupTask, h]
    · simpa [sqlUpdate, lookupTask, h] using ih

theorem lookupTask_sqlUpdate_other (r : Registry) (id id2 : String)
    (f : TaskRow → TaskRow) (h : id2 ≠ id) :
    lookupTask (sqlUpdate r id f) id2 = lookupTask r id2 := by
  have hne : ¬ id = id2 := fun hx => h hx.symm
  induction r with
  | nil => rfl
  | cons p t ih =>
    by_cases hp : p.1 = id
    · simpa [sqlUpdate, lookupTask, hp, hne] using ih
    · by_cases h2 : p.1 = id2
      · simp [sqlUpdate, lookupTask, hp, h2, h]
      · simpa [sqlUpdate, lookupTask, hp, h2] using ih

theorem lookupTask_isSome_eq_any (r : Registry) (id : String) :
    (lookupTask r id).isSome = r.any (fun p => p.1 = id) := by
  induction r with
  | nil => rfl
  | cons p t ih =>
    by_cases h : p.1 = id <;> simp [lookupTask, h, ih]

theorem lookupTask_append_of_none (r1 r2 : Registry) (id : String)
    (h : lookupTask r1 id = none) :
    lookupTask (r1 ++ r2) id = lookupTask r2 id := by
  induction r1 with
  | nil => rfl
  | cons p t ih =>
    by_cases hp : p.1 = id
    · simp [lookupTask, hp] at h
    · simp only [lookupTask, hp, if_false, List.cons_append, if_neg hp] at h ⊢
      exact ih h

theorem lookupTask_append_single_other (r : Registry) (id id2 : String)
    (row : TaskRow) (h : id2 ≠ id) :
    lookupTask (r ++ [(id, row)]) id2 = lookupTask r id2 := by
  induction r with
  | nil =>
    have h2 : ¬ id = id2 := fun hx => h hx.symm
    simp [lookupTask, h2]
  | cons p t ih =>
    by_cases hp : p.1 = id2 <;> simp [lookupTask, hp, ih]

theorem sqlUpdate_eq_self_of_any_false (r : Registry) (id : String)
    (f : TaskRow → TaskRow) (h : r.any (fun p => p.1 = id) = false) :
    sqlUpdate r id f = r := by
  have h2 : ∀ p ∈ r, ¬ p.1 = id := by
    intro p hp
    simpa using (List.any_eq_false.mp h) p hp
  unfold sqlUpdate
  conv_rhs => rw [← List.map_id r]
  apply List.map_congr_left
  intro p hp
  simp [h2 p hp]

theorem any_key_sqlUpdate (r : Registry) (id id2 : String)
    (f : TaskRow → TaskRow) :
    (sqlUpdate r id f).any (fun p => p.1 = id2) =
      r.any (fun p => p.1 = id2) := by
  induction r with
  | nil => rfl
  | cons p t ih =>
    by_cases hp : p.1 = id <;>
      simp [sqlUpdate, hp, List.any_cons] at ih ⊢ <;> rw [ih]

theorem sqlUpdate_sqlUpdate_const (r : Registry) (id : String)
    (f : TaskRow → TaskRow) (row : TaskRow) :
    sqlUpdate (sqlUpdate r id f) id (fun _ => row) =
      sqlUpdate r id (fun _ => row) := by
  unfold sqlUpdate
  rw [List.map_map]
  apply List.map_congr_left
  intro p _
  by_cases hp : p.1 = id <;> simp [hp]

/-! ## Recovery scanner lemmas -/

/-- Folding the failed update over a list of ids marks exactly the rows whose
key occurs in the list. -/
theorem foldl_setFailedKeepLink (ids : List String) (r : Registry) :
    ids.foldl (fun acc id => setFailedKeepLink acc id) r =
      r.map (fun p =>
        if p.1 ∈ ids then (p.1, ⟨Status.failed, p.2.downloadLink⟩) else p) := by
  induction ids generalizing r with
  | nil =>
    conv_lhs => rw [← List.map_id r]
    rw [List.foldl_nil]
    apply List.map_congr_left
    intro p _
    simp
  | cons i ids ih =>
    rw [List.foldl_cons, ih]
    unfold setFailedKeepLink sqlUpdate
    rw [List.map_map]
    apply List.map_congr_left
    intro p _
    by_cases hi : p.1 = i <;> by_cases hmem : p.1 ∈ ids <;>
      simp [hi, hmem]

/-- With unique keys, a key is selected by the recovery query exactly when
its row is in status processing. -/
theorem mem_processingIds_iff {r : Registry} (hnd : (r.map Prod.fst).Nodup)
    {p : String × TaskRow} (hp : p ∈ r) :
    p.1 ∈ processingIds r ↔ p.2.status = Status.processing := by
  constructor
  · intro hmem
    rcases List.mem_map.mp hmem with ⟨q, hq, hkey⟩
    rcases List.mem_filter.mp hq with ⟨hqr, hqs⟩
    have : q = p := List.inj_on_of_nodup_map hnd hqr hp hkey
    subst this
    simpa using hqs
  · intro hs
    apply List.mem_map.mpr
    refine ⟨p, List.mem_filter.mpr ⟨hp, ?_⟩, rfl⟩
    simpa using hs

/-- On a registry with unique keys the recovery scanner is the pointwise
map sending processing rows to failed and leaving every other row alone. -/
theorem handleInterruptedTasks_eq_map {r : Registry}
    (hnd : (r.map Prod.fst).Nodup) :
    handleInterruptedTasks r = r.map failIfProcessing := by
  unfold handleInterruptedTasks
  rw [foldl_setFailedKeepLink]
  apply List.map_congr_left
  intro p hp
  unfold failIfProcessing
  by_cases hs : p.2.status = Status.processing
  · rw [if_pos ((mem_processingIds_iff hnd hp).mpr hs), if_pos hs]
  · rw [if_neg (fun hmem => hs ((mem_processingIds_iff hnd hp).mp hmem)),
      if_neg hs]

/-- failIfProcessing does not change the key column. -/
theorem failIfProcessing_keys (r : Registry) :
    (r.map failIfProcessing).map Prod.fst = r.map Prod.fst := by
  rw [List.map_map]
  apply List.map_congr_left
  intro p _
  unfold failIfProcessing
  by_cases hs : p.2.status = Status.processing <;> simp [hs]

/-- failIfProcessing is idempotent on a row. -/
theorem failIfProcessing_idem (p : String × TaskRow) :
    failIfProcessing (failIfProcessing p) = failIfProcessing p := by
  unfold failIfProcessing
  by_cases hs : p.2.status = Status.processing <;> simp [hs]

/-! ## Queue lemmas -/

/-- The FIFO ghost invariant: the enqueue history is exactly the dispatch
history followed by the jobs still waiting in the queue. -/
theorem reachable_fifo {s : QueueState} (h : Reachable s) :
    s.enqueued = s.dispatched ++ s.taskQueue := by
  induction h with
  | init => rfl
  | step _ hs ih =>
    cases hs with
    | enqueue t s => simp [ih]
    | dispatch s t rest hq hc => simp [ih, hq]
    | finish s hc => simpa using ih

/-- A step that dispatches a job can only fire when no job is in flight
(the concurrency limit is 1). -/
theorem dispatch_needs_idle {s t : QueueState} (hs : QStep s t)
    (hd : t.dispatched ≠ s.dispatched) : s.currentProcessing = 0 := by
  cases hs with
  | enqueue u s => simp at hd
  | dispatch s u rest hq hc =>
    simp [MAX_CONCURRENT_TASKS] at hc
    omega
  | finish s hc => simp at hd

/-! ## Concrete states used as witnesses -/

/-- A sample job. -/
def jobA : VideoTask := ⟨"a", "uploads/a.mp4", "output/a.webm"⟩

/-- A second sample job. -/
def jobB : VideoTask := ⟨"b", "uploads/b.mp4", "output/b.webm"⟩

/-- The state after enqueueing one job and dispatching it. -/
def oneInFlightState : QueueState := ⟨[], 1, [jobA], [jobA]⟩

/-- The state after enqueueing two jobs and dispatching the first. -/
def midState : QueueState := ⟨[jobB], 1, [jobA], [jobA, jobB]⟩

theorem reachable_oneInFlight : Reachable oneInFlightState := by
  have h1 : Reachable ⟨[jobA], 0, [], [jobA]⟩ :=
    Reachable.step Reachable.init (QStep.enqueue jobA initQueueState)
  exact Reachable.step h1
    (QStep.dispatch ⟨[jobA], 0, [], [jobA]⟩ jobA [] rfl (by decide))

theorem reachable_midState : Reachable midState := by
  have h1 : Reachable ⟨[jobA], 0, [], [jobA]⟩ :=
    Reachable.step Reachable.init (QStep.enqueue jobA initQueueState)
  have h2 : Reachable ⟨[jobA, jobB], 0, [], [jobA, jobB]⟩ :=
    Reachable.step h1 (QStep.enqueue jobB ⟨[jobA], 0, [], [jobA]⟩)
  exact Reachable.step h2
    (QStep.dispatch ⟨[jobA, jobB], 0, [], [jobA, jobB]⟩ jobA [jobB] rfl
      (by decide))

/-! ## Claim theorems -/

/-- Claim C1 (code-bug exhibit): when the analysis stage fails (analyzeVideo
returns null, here environment analysisColor = none), processVideo commits
the registry update to status error but leaves the uploaded input artifact
on disk and leaves the frames working directory behind — cleanupFiles runs
only inside chromaKeyVideo, which this path never reaches.  Evaluated at the
failing input: task t1, input file present, registry row processing. -/
theorem processVideo_analysisFailure_keeps_files :
    processVideo ⟨none, none⟩ "t1" "output/t1.webm" ⟨true, false⟩
        [("t1", ⟨Status.processing, none⟩)] =
      (⟨true, true⟩, [("t1", ⟨Status.error, none⟩)]) := by
  decide

/-- Claim C2: in every reachable state of the queue/worker step relation the
number of jobs mid-pipeline (the currentProcessing counter) is at most
MAX_CONCURRENT_TASKS = 1, for every interleaving of submissions and
completions. -/
theorem worker_concurrency_bound (s : QueueState) (h : Reachable s) :
    s.currentProcessing ≤ MAX_CONCURRENT_TASKS := by
  induction h with
  | init => exact Nat.zero_le _
  | step _ hs ih =>
    cases hs with
    | enqueue t u => simpa using ih
    | dispatch u t rest hq hc =>
      simp [MAX_CONCURRENT_TASKS] at hc ⊢
      omega
    | finish u hc =>
      simp [MAX_CONCURRENT_TASKS] at ih ⊢
      omega

theorem worker_concurrency_bound_witness :
    Reachable oneInFlightState ∧
      oneInFlightState.currentProcessing ≤ MAX_CONCURRENT_TASKS :=
  ⟨reachable_oneInFlight,
   worker_concurrency_bound oneInFlightState reachable_oneInFlight⟩

/-- Claim C3: the queue is FIFO — in every reachable state the enqueue
history equals the dispatch history followed by the still-pending queue, so
jobs are handed to the worker in enqueue order; and any step that dispatches
a job can fire only when the in-flight counter is 0, i.e. only after every
previously dispatched job has finished (its terminal registry update inside
processVideo is committed before the finally block decrements the
counter). -/
theorem queue_fifo_order (s : QueueState) (h : Reachable s) :
    s.enqueued = s.dispatched ++ s.taskQueue ∧
    ∀ t : QueueState, QStep s t → t.dispatched ≠ s.dispatched →
      s.currentProcessing = 0 :=
  ⟨reachable_fifo h, fun _ hs hd => dispatch_needs_idle hs hd⟩

theorem queue_fifo_order_witness :
    Reachable midState ∧
      (midState.enqueued = midState.dispatched ++ midState.taskQueue ∧
       ∀ t : QueueState, QStep midState t → t.dispatched ≠ midState.dispatched →
         midState.currentProcessing = 0) :=
  ⟨reachable_midState, queue_fifo_order midState reachable_midState⟩

/-- Claim C4 (counterexample): a transform rejection whose error value has a
falsy message field reaches the catch block of processVideo but fails the
error.message guard, so no registry update runs and the row is left in
status processing — contradicting the claim that every pipeline exception
records status error. -/
theorem processVideo_messageless_error_cex :
    (processVideo ⟨some "#000000", some ⟨false⟩⟩ "t1" "output/t1.webm"
        ⟨true, true⟩ [("t1", ⟨Status.processing, none⟩)]).2 =
      [("t1", ⟨Status.processing, none⟩)] ∧
    lookupTask (processVideo ⟨some "#000000", some ⟨false⟩⟩ "t1"
        "output/t1.webm" ⟨true, true⟩
        [("t1", ⟨Status.processing, none⟩)]).2 "t1" =
      some ⟨Status.processing, none⟩ := by
  constructor <;> decide

/-- Claim C4 (amended): every pipeline exception whose error value carries a
truthy message — the analysis-failure throw always does, and any transform
rejection with a message does — leaves the task row updated to status error
with downloadLink NULL; an exception without a message leaves the registry
untouched. -/
theorem processVideo_error_paths (color : String) (e : JsError)
    (te : Option JsError) (id out : String) (files : TaskFiles)
    (r : Registry) (row : TaskRow) (he : e.hasMessage = true)
    (hrow : lookupTask r id = some row) :
    lookupTask (processVideo ⟨some color, some e⟩ id out files r).2 id =
      some ⟨Status.error, none⟩ ∧
    lookupTask (processVideo ⟨none, te⟩ id out files r).2 id =
      some ⟨Status.error, none⟩ := by
  have h3 : lookupTask (setError r id) id = some ⟨Status.error, none⟩ := by
    rw [setError, lookupTask_sqlUpdate_self, hrow]
    rfl
  have h1 : (processVideo ⟨some color, some e⟩ id out files r).2 =
      setError r id := by
    simp [processVideo, analyzeVideo, chromaKeyVideo, he]
  have h2 : (processVideo ⟨none, te⟩ id out files r).2 = setError r id := by
    simp [processVideo, analyzeVideo]
  exact ⟨by rw [h1]; exact h3, by rw [h2]; exact h3⟩

theorem processVideo_error_paths_witness :
    (JsError.mk true).hasMessage = true ∧
    lookupTask [("t1", (⟨Status.processing, none⟩ : TaskRow))] "t1" =
      some ⟨Status.processing, none⟩ ∧
    lookupTask (processVideo ⟨some "#000000", some ⟨true⟩⟩ "t1"
        "output/t1.webm" ⟨true, true⟩
        [("t1", ⟨Status.processing, none⟩)]).2 "t1" =
      some ⟨Status.error, none⟩ ∧
    lookupTask (processVideo ⟨none, none⟩ "t1" "output/t1.webm" ⟨true, true⟩
        [("t1", ⟨Status.processing, none⟩)]).2 "t1" =
      some ⟨Status.error, none⟩ := by
  have h := processVideo_error_paths "#000000" ⟨true⟩ none "t1"
    "output/t1.webm" ⟨true, true⟩ [("t1", ⟨Status.processing, none⟩)]
    ⟨Status.processing, none⟩ (by decide) (by decide)
  exact ⟨rfl, by decide, h.1, h.2⟩

instance registryInvDecidable (r : Registry) : Decidable (registryInv r) :=
  inferInstanceAs (Decidable (∀ p ∈ r,
    p.2.downloadLink.isSome = true → p.2.status = Status.completed))

theorem upsertProcessing_of_any_true (r : Registry) (id : String)
    (h : r.any (fun p => p.1 = id) = true) :
    upsertProcessing r id =
      sqlUpdate r id (fun _ => ⟨Status.processing, none⟩) := by
  unfold upsertProcessing
  rw [if_pos h]

theorem upsertProcessing_of_any_false (r : Registry) (id : String)
    (h : r.any (fun p => p.1 = id) = false) :
    upsertProcessing r id = r ++ [(id, ⟨Status.processing, none⟩)] := by
  unfold upsertProcessing
  rw [if_neg (by simp [h])]

/-- Updates through sqlUpdate whose new row satisfies the link/status
condition preserve the registry invariant. -/
theorem registryInv_sqlUpdate (r : Registry) (id : String)
    (f : TaskRow → TaskRow) (hinv : registryInv r)
    (hf : ∀ p ∈ r, p.1 = id →
      (f p.2).downloadLink.isSome = true → (f p.2).status = Status.completed) :
    registryInv (sqlUpdate r id f) := by
  intro q hq hsome
  unfold sqlUpdate at hq
  rcases List.mem_map.mp hq with ⟨p, hp, hq2⟩
  by_cases hpid : p.1 = id
  · rw [if_pos hpid] at hq2
    rw [← hq2] at hsome ⊢
    exact hf p hp hpid hsome
  · rw [if_neg hpid] at hq2
    rw [← hq2] at hsome ⊢
    exact hinv p hp hsome

/-- Claim C5: every registry write — the submission upsert, the worker
completed and error updates, and the recovery failed update — preserves the
invariant that a non-null downloadLink occurs only on a completed row
(uniqueness of the primary key, which sqlite enforces, is assumed for the
recovery update, whose SET clause does not clear the link column). -/
theorem registry_writes_preserve_link_inv (r : Registry) (id link : String)
    (hnd : (r.map Prod.fst).Nodup) (hinv : registryInv r) :
    registryInv (upsertProcessing r id) ∧
    registryInv (setCompleted r id link) ∧
    registryInv (setError r id) ∧
    registryInv (handleInterruptedTasks r) := by
  refine ⟨?_, ?_, ?_, ?_⟩
  · by_cases h : r.any (fun p => p.1 = id)
    · rw [upsertProcessing_of_any_true r id h]
      exact registryInv_sqlUpdate r id _ hinv
        (by intro p hp hpid hsome; simp at hsome)
    · rw [Bool.not_eq_true] at h
      rw [upsertProcessing_of_any_false r id h]
      intro q hq hsome
      rcases List.mem_append.mp hq with hq | hq
      · exact hinv q hq hsome
      · simp only [List.mem_singleton] at hq
        rw [hq] at hsome
        simp at hsome
  · exact registryInv_sqlUpdate r id _ hinv (fun p hp hpid hsome => rfl)
  · exact registryInv_sqlUpdate r id _ hinv
      (by intro p hp hpid hsome; simp at hsome)
  · rw [handleInterruptedTasks_eq_map hnd]
    intro q hq hsome
    rcases List.mem_map.mp hq with ⟨p, hp, hq2⟩
    unfold failIfProcessing at hq2
    by_cases hs : p.2.status = Status.processing
    · rw [if_pos hs] at hq2
      rw [← hq2] at hsome
      have hc := hinv p hp hsome
      rw [hs] at hc
      simp at hc
    · rw [if_neg hs] at hq2
      rw [← hq2] at hsome ⊢
      exact hinv p hp hsome

/-- A registry with completed-with-link, processing and error rows. -/
def invReg : Registry :=
  [("a", ⟨Status.completed, some "/download/a.webm"⟩),
   ("b", ⟨Status.processing, none⟩)]

theorem registry_writes_preserve_link_inv_witness :
    ((invReg.map Prod.fst).Nodup ∧ registryInv invReg) ∧
    (registryInv (upsertProcessing invReg "c") ∧
     registryInv (setCompleted invReg "c" "/download/c.webm") ∧
     registryInv (setError invReg "c") ∧
     registryInv (handleInterruptedTasks invReg)) :=
  ⟨⟨by decide, by decide⟩,
   registry_writes_preserve_link_inv invReg "c" "/download/c.webm"
     (by decide) (by decide)⟩

/-- Claim C6: on a registry with unique primary keys the recovery scanner
turns exactly the rows in status processing into failed rows (keeping their
link column) and changes nothing else, and running it a second time changes
nothing at all. -/
theorem recovery_scan_idempotent (r : Registry)
    (hnd : (r.map Prod.fst).Nodup) :
    handleInterruptedTasks r = r.map failIfProcessing ∧
    handleInterruptedTasks (handleInterruptedTasks r) =
      handleInterruptedTasks r := by
  have h1 := handleInterruptedTasks_eq_map hnd
  refine ⟨h1, ?_⟩
  have hnd2 : ((r.map failIfProcessing).map Prod.fst).Nodup := by
    rw [failIfProcessing_keys]
    exact hnd
  rw [h1, handleInterruptedTasks_eq_map hnd2, List.map_map]
  apply List.map_congr_left
  intro p _
  exact failIfProcessing_idem p

/-- A registry with one orphaned processing row among terminal rows. -/
def recReg : Registry :=
  [("a", ⟨Status.processing, none⟩),
   ("b", ⟨Status.completed, some "/download/b.webm"⟩),
   ("c", ⟨Status.error, none⟩)]

theorem recovery_scan_idempotent_witness :
    (recReg.map Prod.fst).Nodup ∧
    (handleInterruptedTasks recReg = recReg.map failIfProcessing ∧
     handleInterruptedTasks (handleInterruptedTasks recReg) =
       handleInterruptedTasks recReg) :=
  ⟨by decide, recovery_scan_idempotent recReg (by decide)⟩

/-- Claim C7: the submission write leaves the row for the given id in state
(processing, NULL) whether or not a row existed, touches no other id, and
applying it twice equals applying it once. -/
theorem createOrReset_upsert (r : Registry) (id : String) :
    lookupTask (upsertProcessing r id) id =
      some ⟨Status.processing, none⟩ ∧
    (∀ id2 : String, id2 ≠ id →
      lookupTask (upsertProcessing r id) id2 = lookupTask r id2) ∧
    upsertProcessing (upsertProcessing r id) id = upsertProcessing r id := by
  refine ⟨?_, ?_, ?_⟩
  · by_cases h : r.any (fun p => p.1 = id)
    · rw [upsertProcessing_of_any_true r id h, lookupTask_sqlUpdate_self]
      have hsome : (lookupTask r id).isSome = true := by
        rw [lookupTask_isSome_eq_any]
        exact h
      rcases Option.isSome_iff_exists.mp hsome with ⟨row, hrow⟩
      rw [hrow]
      rfl
    · rw [Bool.not_eq_true] at h
      rw [upsertProcessing_of_any_false r id h]
      have hnone : lookupTask r id = none := by
        cases ho : lookupTask r id with
        | none => rfl
        | some row =>
          have hx := lookupTask_isSome_eq_any r id
          rw [ho, h] at hx
          simp at hx
      rw [lookupTask_append_of_none r _ id hnone]
      simp [lookupTask]
  · intro id2 hne
    by_cases h : r.any (fun p => p.1 = id)
    · rw [upsertProcessing_of_any_true r id h]
      exact lookupTask_sqlUpdate_other r id id2 _ hne
    · rw [Bool.not_eq_true] at h
      rw [upsertProcessing_of_any_false r id h]
      exact lookupTask_append_single_other r id id2 _ hne
  · by_cases h : r.any (fun p => p.1 = id)
    · rw [upsertProcessing_of_any_true r id h]
      have h2 : (sqlUpdate r id fun _ =>
          (⟨Status.processing, none⟩ : TaskRow)).any
            (fun p => p.1 = id) = true := by
        rw [any_key_sqlUpdate]
        exact h
      rw [upsertProcessing_of_any_true _ id h2]
      exact sqlUpdate_sqlUpdate_const r id _ _
    · rw [Bool.not_eq_true] at h
      rw [upsertProcessing_of_any_false r id h]
      have h2 : (r ++ [(id, (⟨Status.processing, none⟩ : TaskRow))]).any
          (fun p => p.1 = id) = true := by
        rw [List.any_append]
        simp
      rw [upsertProcessing_of_any_true _ id h2]
      unfold sqlUpdate
      rw [List.map_append]
      have h3 := sqlUpdate_eq_self_of_any_false r id
        (fun _ => (⟨Status.processing, none⟩ : TaskRow)) h
      unfold sqlUpdate at h3
      rw [h3]
      simp

/-- A registry holding a terminal row for the id being resubmitted. -/
def upReg : Registry := [("a", ⟨Status.error, none⟩)]

theorem createOrReset_upsert_witness :
    lookupTask (upsertProcessing upReg "a") "a" =
      some ⟨Status.processing, none⟩ ∧
    lookupTask (upsertProcessing upReg "a") "b" = lookupTask upReg "b" ∧
    upsertProcessing (upsertProcessing upReg "a") "a" =
      upsertProcessing upReg "a" :=
  ⟨(createOrReset_upsert upReg "a").1,
   (createOrReset_upsert upReg "a").2.1 "b" (by decide),
   (createOrReset_upsert upReg "a").2.2⟩

/-- Claim C8 (counterexample): at a completed row with a link the status
endpoint does not answer with the bare status/downloadLink object the spec
describes — the row data is wrapped under a taskInfo field. -/
theorem status_body_wrapped_cex :
    statusHandler (DbReadResult.ok
        (some ⟨Status.completed, some "/download/t1.webm"⟩)) ≠
      StatusResponse.ok
        (specStatusBody ⟨Status.completed, some "/download/t1.webm"⟩) := by
  decide

/-- Claim C8 (amended): for GET /status/:taskId, an unknown id yields 404,
and a known id yields a 200 whose body is the object wrapping the row data
under a taskInfo key — the inner object holds the status string and a
downloadLink field exactly when the column is non-null. -/
theorem status_endpoint_amended (r : Registry) (id : String) :
    (lookupTask r id = none →
      statusHandler (DbReadResult.ok (lookupTask r id)) =
        StatusResponse.notFound) ∧
    (∀ row : TaskRow, lookupTask r id = some row →
      statusHandler (DbReadResult.ok (lookupTask r id)) =
        StatusResponse.ok
          [("taskInfo",
            JField.jobj (taskInfoFields ⟨row.status, row.downloadLink⟩))]) := by
  constructor
  · intro h
    rw [h]
    rfl
  · intro row h
    rw [h]
    rfl

/-- A registry with one completed task. -/
def stReg : Registry := [("t1", ⟨Status.completed, some "/download/t1.webm"⟩)]

theorem status_endpoint_amended_witness :
    lookupTask stReg "zz" = none ∧
    lookupTask stReg "t1" =
      some ⟨Status.completed, some "/download/t1.webm"⟩ ∧
    statusHandler (DbReadResult.ok (lookupTask stReg "zz")) =
      StatusResponse.notFound ∧
    statusHandler (DbReadResult.ok (lookupTask stReg "t1")) =
      StatusResponse.ok
        [("taskInfo", JField.jobj
          (taskInfoFields ⟨Status.completed, some "/download/t1.webm"⟩))] := by
  refine ⟨by decide, by decide, ?_, ?_⟩
  · exact (status_endpoint_amended stReg "zz").1 (by decide)
  · exact (status_endpoint_amended stReg "t1").2
      ⟨Status.completed, some "/download/t1.webm"⟩ (by decide)

/-- Claim C9: POST /upload rejects a missing video field with 400 and a
payload strictly larger than 50 MiB with 413, in both cases before any
state change: the tasks table and the queue are exactly as before, so no
registry row and no queue entry is created. -/
theorem upload_validation_no_row (req : UploadRequest) (st : ServerState)
    (freshId : String) (writeOk : Bool) :
    (req.video = none →
      uploadHandler req freshId writeOk st =
        (UploadResponse.badRequest, st)) ∧
    (∀ f : UploadFile, req.video = some f → MAX_SIZE < f.size →
      uploadHandler req freshId writeOk st = (UploadResponse.tooLarge, st)) := by
  constructor
  · intro h
    simp [uploadHandler, h]
  · intro f hf hsize
    simp [uploadHandler, hf, hsize]

theorem upload_validation_no_row_witness :
    uploadHandler ⟨some ⟨52428801⟩⟩ "t1" true ⟨[], []⟩ =
      (UploadResponse.tooLarge, ⟨[], []⟩) ∧
    uploadHandler ⟨none⟩ "t1" true ⟨[], []⟩ =
      (UploadResponse.badRequest, ⟨[], []⟩) :=
  ⟨(upload_validation_no_row ⟨some ⟨52428801⟩⟩ ⟨[], []⟩ "t1" true).2
      ⟨52428801⟩ rfl (by decide),
   (upload_validation_no_row ⟨none⟩ ⟨[], []⟩ "t1" true).1 rfl⟩

/-- Claim C10: a thrown registry read inside getTaskInfo is swallowed into
undefined, so the status endpoint answers 404 — byte-identical to the
answer for an id with no row; an internal read failure and an absent task
are indistinguishable to the caller. -/
theorem status_read_error_as_not_found :
    statusHandler DbReadResult.dbError = StatusResponse.notFound ∧
    statusHandler (DbReadResult.ok none) = StatusResponse.notFound ∧
    statusHandler DbReadResult.dbError = statusHandler (DbReadResult.ok none) :=
  ⟨rfl, rfl, rfl⟩

end ChromaKeyBackend
